import Mathlib

/-
Verification of the CRM activity pagination algorithm of
`fetch_paginated_activities` (src/app.py).  The function walks a remote
paginated activity collection for one lead: the first request filters with
`date_created__gt` against a 180-day lookback horizon, every later request
filters with `date_created__lt` against the current reference timestamp,
and a `_skip` offset is used to walk runs of records that share one exact
timestamp.  The remote endpoint itself is an external collaborator; it is
modelled from the spec (strict timestamp filters, row skip, `has_more`).
Timestamps are integers measured in days, so the 180-day lookback horizon
is `now - 180`.
-/

/-- A CRM activity record.  The fetcher only ever reads the `activity_at`
timestamp; `payload` stands for the rest of the record, which the fetcher
treats as opaque. -/
structure Activity where
  activity_at : Int
  payload : Nat
  deriving DecidableEq, Repr

/-- The parameters of one page request, mirroring the `activity_params`
dictionaries built in the loop body: the lead id, at most one of the two
timestamp bounds `date_created__gt` / `date_created__lt`, and the row
offset passed as `_skip`. -/
structure ActivityParams where
  lead_id : String
  date_created_gt : Option Int
  date_created_lt : Option Int
  skip : Nat
  deriving DecidableEq, Repr

/-- One remote page response: the `data` list of records and the `has_more`
continuation flag. -/
structure ActivityResponse where
  data : List Activity
  has_more : Bool
  deriving DecidableEq, Repr

/-- The remote endpoint, as seen by the fetcher: a page request either
returns a page or fails with a transport error (a raised exception in the
Python code). -/
abbrev Server := ActivityParams → Except String ActivityResponse

/-- The mutable state of the `while` loop in `fetch_paginated_activities`,
one field per Python local.  The extra `trace` field is a ghost variable
recording, in order, every request issued to the remote endpoint; it does
not influence the computation. -/
structure LoopState where
  all_activities : List Activity
  current_start_date : Int
  first_iteration : Bool
  offset : Nat
  pages : Nat
  first_iteration_date : Option Int
  trace : List ActivityParams
  deriving DecidableEq, Repr

/-- The request built at the top of each loop iteration: on the first
iteration the filter is `date_created__gt current_start_date`, on every
later iteration it is `date_created__lt current_start_date`; `_skip` is the
current offset. -/
def mkParams (lead_id : String) (s : LoopState) : ActivityParams :=
  if s.first_iteration then
    ⟨lead_id, some s.current_start_date, none, s.offset⟩
  else
    ⟨lead_id, none, some s.current_start_date, s.offset⟩

/-- The tie-reference timestamp against which the page's last record is
compared: on the first iteration it is the first record's timestamp of the
page just fetched (`first_iteration_date = data[0]["activity_at"]`),
afterwards it is the stored `first_iteration_date`. -/
def tieReference (s : LoopState) (d : Activity) : Option Int :=
  if s.first_iteration then some d.activity_at else s.first_iteration_date

/-- The last record's timestamp of a non-empty page (`data[-1]["activity_at"]`). -/
def pageLast (d : Activity) (ds : List Activity) : Int :=
  ((d :: ds).getLast (List.cons_ne_nil d ds)).activity_at

/-- The loop body after a successful non-empty page `d :: ds`: append the
page to the buffer, update the tie reference, and either bump the offset by
the page length (same timestamp) or reset it to 0 (new timestamp); then set
`current_start_date` to the last record's timestamp, count the page, and
clear the first-iteration flag. -/
def processPage (s : LoopState) (d : Activity) (ds : List Activity) : LoopState :=
  if some (pageLast d ds) = tieReference s d then
    ⟨s.all_activities ++ (d :: ds), pageLast d ds, false,
      s.offset + (d :: ds).length, s.pages + 1, tieReference s d, s.trace⟩
  else
    ⟨s.all_activities ++ (d :: ds), pageLast d ds, false,
      0, s.pages + 1, some (pageLast d ds), s.trace⟩

/-- The `while pagination:` loop, with explicit fuel standing in for the
unbounded iteration (`none` means the fuel ran out before the loop exited).
Each iteration issues one request (recorded in the ghost trace); the loop
exits on an empty page, on `has_more = false`, or by propagating a
transport error. -/
def fetchLoop (server : Server) (lead_id : String) :
    Nat → LoopState → Option (Except String LoopState)
  | 0, _ => none
  | n + 1, s =>
    let p := mkParams lead_id s
    let s0 : LoopState := { s with trace := s.trace ++ [p] }
    match server p with
    | .error e => some (.error e)
    | .ok resp =>
      match resp.data with
      | [] => some (.ok s0)
      | d :: ds =>
        let s1 := processPage s0 d ds
        if resp.has_more then fetchLoop server lead_id n s1
        else some (.ok s1)

/-- The fixed lookback horizon: 180 days before now (`timedelta(days=180)`). -/
def lookback_days : Int := 180

/-- The loop state on entry: empty buffer, `current_start_date` at the
lookback horizon, first-iteration flag set, offset 0, no pages fetched, no
tie reference yet. -/
def initialState (now : Int) : LoopState :=
  ⟨[], now - lookback_days, true, 0, 0, none, []⟩

/-- Running the traversal loop from the initial state: the internal result
before the final truncation, exposing the full buffer and the ghost trace. -/
def fetchRun (server : Server) (lead_id : String) (now : Int) (fuel : Nat) :
    Option (Except String LoopState) :=
  fetchLoop server lead_id fuel (initialState now)

/-- `fetch_paginated_activities` itself: run the traversal and return
`all_activities[:10]`, or propagate the transport error. -/
def fetch_paginated_activities (server : Server) (lead_id : String)
    (now : Int) (fuel : Nat) : Option (Except String (List Activity)) :=
  (fetchRun server lead_id now fuel).map (fun r => r.map
    (fun s => s.all_activities.take 10))

/-- Whether one activity record passes the timestamp filters of a request:
`date_created__gt` keeps records strictly newer than the bound and
`date_created__lt` keeps records strictly older than the bound. -/
def matchesFilter (p : ActivityParams) (a : Activity) : Bool :=
  (match p.date_created_gt with
   | some b => decide (b < a.activity_at)
   | none => true) &&
  (match p.date_created_lt with
   | some b => decide (a.activity_at < b)
   | none => true)

/-- Modelled from the spec: the remote activity collection query of section
6, which is an external collaborator and not part of this repository.  The
collection `coll` lists the lead's records most recent first; a request
keeps the records passing the strict timestamp filters, drops `_skip` of
them, returns at most one page (`limit` records), and sets `has_more`
exactly when filtered records remain beyond the returned page. -/
def serverOf (limit : Nat) (coll : List Activity) : Server := fun p =>
  let remaining := (coll.filter (matchesFilter p)).drop p.skip
  .ok ⟨remaining.take limit, decide (limit < remaining.length)⟩

example :
    fetch_paginated_activities (serverOf 100 []) "L1" 200 3 =
      some (.ok []) := by rfl

example :
    fetch_paginated_activities (serverOf 100 [⟨150, 0⟩, ⟨140, 1⟩]) "L1" 200 3 =
      some (.ok [⟨150, 0⟩, ⟨140, 1⟩]) := by rfl

/-! Helper lemmas: one-step unfoldings of the loop and simple facts about
the loop body. -/

lemma fetchLoop_succ (server : Server) (lead_id : String) (n : Nat)
    (s : LoopState) :
    fetchLoop server lead_id (n + 1) s =
      match server (mkParams lead_id s) with
      | .error e => some (.error e)
      | .ok resp =>
        match resp.data with
        | [] => some (.ok { s with trace := s.trace ++ [mkParams lead_id s] })
        | d :: ds =>
          if resp.has_more then
            fetchLoop server lead_id n
              (processPage { s with trace := s.trace ++ [mkParams lead_id s] } d ds)
          else
            some (.ok
              (processPage { s with trace := s.trace ++ [mkParams lead_id s] } d ds)) :=
  rfl

lemma fetchLoop_error (server : Server) (lead_id : String) (n : Nat)
    (s : LoopState) (e : String)
    (h : server (mkParams lead_id s) = .error e) :
    fetchLoop server lead_id (n + 1) s = some (.error e) := by
  rw [fetchLoop_succ, h]

lemma fetchLoop_empty (server : Server) (lead_id : String) (n : Nat)
    (s : LoopState) (hm : Bool)
    (h : server (mkParams lead_id s) = .ok ⟨[], hm⟩) :
    fetchLoop server lead_id (n + 1) s =
      some (.ok { s with trace := s.trace ++ [mkParams lead_id s] }) := by
  rw [fetchLoop_succ, h]

lemma fetchLoop_more (server : Server) (lead_id : String) (n : Nat)
    (s : LoopState) (d : Activity) (ds : List Activity)
    (h : server (mkParams lead_id s) = .ok ⟨d :: ds, true⟩) :
    fetchLoop server lead_id (n + 1) s =
      fetchLoop server lead_id n
        (processPage { s with trace := s.trace ++ [mkParams lead_id s] } d ds) := by
  rw [fetchLoop_succ, h]; rfl

lemma fetchLoop_last (server : Server) (lead_id : String) (n : Nat)
    (s : LoopState) (d : Activity) (ds : List Activity)
    (h : server (mkParams lead_id s) = .ok ⟨d :: ds, false⟩) :
    fetchLoop server lead_id (n + 1) s =
      some (.ok
        (processPage { s with trace := s.trace ++ [mkParams lead_id s] } d ds)) := by
  rw [fetchLoop_succ, h]; rfl

lemma processPage_first_iteration (s : LoopState) (d : Activity)
    (ds : List Activity) : (processPage s d ds).first_iteration = false := by
  unfold processPage; split <;> rfl

lemma processPage_trace (s : LoopState) (d : Activity) (ds : List Activity) :
    (processPage s d ds).trace = s.trace := by
  unfold processPage; split <;> rfl

lemma processPage_all_activities (s : LoopState) (d : Activity)
    (ds : List Activity) :
    (processPage s d ds).all_activities = s.all_activities ++ (d :: ds) := by
  unfold processPage; split <;> rfl

lemma processPage_current (s : LoopState) (d : Activity) (ds : List Activity) :
    (processPage s d ds).current_start_date = pageLast d ds := by
  unfold processPage; split <;> rfl

lemma processPage_offset (s : LoopState) (d : Activity) (ds : List Activity) :
    (processPage s d ds).offset =
      if some (pageLast d ds) = tieReference s d then
        s.offset + (d :: ds).length
      else 0 := by
  unfold processPage; split <;> simp_all

/-! C2: the 10-record truncation. -/

/-- C2: whatever the remote returns and however many pages the traversal
walks, a successful call to `fetch_paginated_activities` returns at most 10
records. -/
theorem fetch_at_most_ten (server : Server) (lead_id : String) (now : Int)
    (fuel : Nat) (l : List Activity)
    (h : fetch_paginated_activities server lead_id now fuel = some (.ok l)) :
    l.length ≤ 10 := by
  unfold fetch_paginated_activities at h
  cases hr : fetchRun server lead_id now fuel with
  | none => rw [hr] at h; simp at h
  | some r =>
    rw [hr] at h
    cases r with
    | error e => simp [Except.map] at h
    | ok st =>
      simp [Except.map] at h
      rw [← h]
      exact List.length_take_le 10 st.all_activities

theorem fetch_at_most_ten_witness :
    fetch_paginated_activities (serverOf 100 []) "L1" 200 1 = some (.ok []) ∧
      ([] : List Activity).length ≤ 10 :=
  ⟨by rfl, fetch_at_most_ten (serverOf 100 []) "L1" 200 1 [] (by rfl)⟩

/-! C9: the concrete two-request scenario from the spec. -/

/-- Mock remote for the spec's concrete scenario: the greater-than request
(first page) yields three records at distinct timestamps 150 > 140 > 130
with `has_more = true`; any less-than request yields an empty page with
`has_more = false`. -/
def scenarioServer : Server := fun p =>
  match p.date_created_gt with
  | some _ => .ok ⟨[⟨150, 0⟩, ⟨140, 1⟩, ⟨130, 2⟩], true⟩
  | none => .ok ⟨[], false⟩

/-- C9: in the scenario where page 1 returns 3 records at distinct
timestamps t1 > t2 > t3 with `has_more = true` and the follow-up page
(filtered by timestamp less than t3 = 130) is empty with `has_more =
false`, the fetcher issues exactly 2 requests and returns exactly those 3
records. -/
theorem scenario_two_requests_three_records :
    fetchRun scenarioServer "L1" 300 5 =
      some (.ok ⟨[⟨150, 0⟩, ⟨140, 1⟩, ⟨130, 2⟩], 130, false, 0, 1, some 130,
        [⟨"L1", some 120, none, 0⟩, ⟨"L1", none, some 130, 0⟩]⟩) ∧
    fetch_paginated_activities scenarioServer "L1" 300 5 =
      some (.ok [⟨150, 0⟩, ⟨140, 1⟩, ⟨130, 2⟩]) :=
  ⟨by rfl, by rfl⟩

/-! C1: the tie-break walk, against the spec's model of the remote query.
Under the strict `date_created__lt` filter of section 4.1/6, the follow-up
request of the tie branch (unchanged bound, increased skip) cannot return
the remaining tied records, so a tied run straddling the page boundary
loses records. -/

/-- A lead whose activity is 3 records all sharing timestamp 100: more
than one page's worth for page size 2. -/
def tieColl : List Activity := [⟨100, 0⟩, ⟨100, 1⟩, ⟨100, 2⟩]

/-- C1: evaluating the fetcher against the spec-modelled remote on a lead
with 3 records sharing timestamp 100 and page size 2: the tie branch does
issue the follow-up request with the tie timestamp as bound and skip
increased to 2, but that request returns an empty page (the strict
less-than filter excludes the tied records), so the traversal stops with
record `⟨100, 2⟩` lost — refuting the no-loss part of the claim. -/
theorem tie_break_loses_record :
    fetchRun (serverOf 2 tieColl) "L1" 200 5 =
      some (.ok ⟨[⟨100, 0⟩, ⟨100, 1⟩], 100, false, 2, 1, some 100,
        [⟨"L1", some 20, none, 0⟩, ⟨"L1", none, some 100, 2⟩]⟩) ∧
    fetch_paginated_activities (serverOf 2 tieColl) "L1" 200 5 =
      some (.ok [⟨100, 0⟩, ⟨100, 1⟩]) ∧
    (⟨100, 2⟩ : Activity) ∈ tieColl ∧
    (⟨100, 2⟩ : Activity) ∉ [(⟨100, 0⟩ : Activity), ⟨100, 1⟩] :=
  ⟨by rfl, by rfl, by decide, by decide⟩

/-! C3: transport failures abort the traversal and discard the partial
buffer. -/

/-- C3: a transport error on any page request aborts the loop at that
request — whatever `s.all_activities` has accumulated so far is discarded —
and an erroring run makes `fetch_paginated_activities` return that error
and never a record list. -/
theorem fetch_error_propagates (server : Server) (lead_id : String)
    (e : String) :
    (∀ (fuel : Nat) (s : LoopState), server (mkParams lead_id s) = .error e →
      fetchLoop server lead_id (fuel + 1) s = some (.error e)) ∧
    (∀ (now : Int) (fuel : Nat),
      fetchRun server lead_id now fuel = some (.error e) →
        fetch_paginated_activities server lead_id now fuel =
          some (.error e) ∧
        ∀ l : List Activity,
          fetch_paginated_activities server lead_id now fuel ≠
            some (.ok l)) := by
  refine ⟨fun fuel s h => fetchLoop_error server lead_id fuel s e h,
    fun now fuel h => ?_⟩
  have hfe : fetch_paginated_activities server lead_id now fuel =
      some (.error e) := by
    unfold fetch_paginated_activities
    rw [h]; rfl
  exact ⟨hfe, fun l hl => by rw [hfe] at hl; exact absurd hl (by simp)⟩

/-- Mock remote that serves two pages and then fails: the first (greater
than) request yields one record at 50, the request below 50 yields one
record at 40, and any other request raises a transport error. -/
def failServer : Server := fun p =>
  match p.date_created_lt with
  | none => .ok ⟨[⟨50, 0⟩], true⟩
  | some b => if b = 50 then .ok ⟨[⟨40, 1⟩], true⟩ else .error "boom"

theorem fetch_error_propagates_witness :
    failServer (mkParams "L1"
        ⟨[⟨50, 0⟩, ⟨40, 1⟩], 40, false, 0, 2, some 40, []⟩) =
      .error "boom" ∧
    fetchLoop failServer "L1" 1
        ⟨[⟨50, 0⟩, ⟨40, 1⟩], 40, false, 0, 2, some 40, []⟩ =
      some (.error "boom") ∧
    fetchRun failServer "L1" 200 3 = some (.error "boom") ∧
    fetch_paginated_activities failServer "L1" 200 3 =
      some (.error "boom") :=
  ⟨by rfl,
    (fetch_error_propagates failServer "L1" "boom").1 0 _ (by rfl),
    by rfl,
    ((fetch_error_propagates failServer "L1" "boom").2 200 3 (by rfl)).1⟩

/-! C4: single-page leads.  As stated, the claim ("returns exactly that
many records") fails when the single page holds between 11 and
page-size-many records: the final truncation keeps only 10 of them.  The
amended claim returns the first `min(count, 10)` records. -/

/-- A lead with 11 activity records at distinct timestamps 111 down to
101: fewer than one page's worth for the remote's page size of 100, yet
more than the 10-record cap. -/
def coll11 : List Activity :=
  [⟨111, 0⟩, ⟨110, 1⟩, ⟨109, 2⟩, ⟨108, 3⟩, ⟨107, 4⟩, ⟨106, 5⟩,
    ⟨105, 6⟩, ⟨104, 7⟩, ⟨103, 8⟩, ⟨102, 9⟩, ⟨101, 10⟩]

/-- C4 (counterexample): a lead with 11 records, all fitting in the single
first page (page size 100, `has_more = false`), gets exactly one request —
but the call returns 10 records, not the 11 the claim promises. -/
theorem single_page_truncated_counterexample :
    serverOf 100 coll11 (mkParams "L1" (initialState 200)) =
      .ok ⟨coll11, false⟩ ∧
    fetchRun (serverOf 100 coll11) "L1" 200 2 =
      some (.ok ⟨coll11, 101, false, 0, 1, some 101,
        [⟨"L1", some 20, none, 0⟩]⟩) ∧
    fetch_paginated_activities (serverOf 100 coll11) "L1" 200 2 =
      some (.ok (coll11.take 10)) ∧
    (coll11.take 10).length ≠ coll11.length :=
  ⟨by rfl, by rfl, by rfl, by decide⟩

/-- C4 (amended): if the first page response carries `has_more = false`
(the lead's in-horizon activity fits in one page), the fetcher issues
exactly one request and returns exactly the first `min(count, 10)` of the
page's records — all of them when there are at most 10. -/
theorem single_page_when_no_more (server : Server) (lead_id : String)
    (now : Int) (fuel : Nat) (resp : ActivityResponse)
    (h1 : server (mkParams lead_id (initialState now)) = .ok resp)
    (h2 : resp.has_more = false) :
    fetch_paginated_activities server lead_id now (fuel + 1) =
      some (.ok (resp.data.take 10)) ∧
    ∃ st, fetchRun server lead_id now (fuel + 1) = some (.ok st) ∧
      st.trace.length = 1 ∧ st.all_activities = resp.data := by
  obtain ⟨data, hm⟩ := resp
  simp only at h2
  subst h2
  cases data with
  | nil =>
    have hrun : fetchRun server lead_id now (fuel + 1) =
        some (.ok { initialState now with
          trace := [mkParams lead_id (initialState now)] }) := by
      unfold fetchRun
      rw [fetchLoop_empty server lead_id fuel (initialState now) false h1]
      rfl
    refine ⟨?_, ⟨_, hrun, by rfl, by rfl⟩⟩
    unfold fetch_paginated_activities
    rw [hrun]; rfl
  | cons d ds =>
    have hrun : fetchRun server lead_id now (fuel + 1) =
        some (.ok (processPage { initialState now with
          trace := [mkParams lead_id (initialState now)] } d ds)) := by
      unfold fetchRun
      rw [fetchLoop_last server lead_id fuel (initialState now) d ds h1]
      rfl
    refine ⟨?_, ⟨_, hrun, ?_, ?_⟩⟩
    · unfold fetch_paginated_activities
      rw [hrun]
      simp [Except.map, processPage_all_activities, initialState]
    · simp [processPage_trace]
    · simp [processPage_all_activities, initialState]

theorem single_page_when_no_more_witness :
    serverOf 100 [(⟨150, 0⟩ : Activity), ⟨140, 1⟩]
        (mkParams "L1" (initialState 200)) =
      .ok ⟨[⟨150, 0⟩, ⟨140, 1⟩], false⟩ ∧
    fetch_paginated_activities (serverOf 100 [(⟨150, 0⟩ : Activity), ⟨140, 1⟩])
        "L1" 200 1 =
      some (.ok ([(⟨150, 0⟩ : Activity), ⟨140, 1⟩].take 10)) :=
  ⟨by rfl,
    (single_page_when_no_more (serverOf 100 [(⟨150, 0⟩ : Activity), ⟨140, 1⟩])
      "L1" 200 0 ⟨[⟨150, 0⟩, ⟨140, 1⟩], false⟩ (by rfl) (by rfl)).1⟩

/-! C5: an empty first page is a valid empty result. -/

/-- C5: if the very first page request returns zero records, the fetcher
issues exactly that one request (the ghost trace holds just the initial
greater-than request) and returns the empty list. -/
theorem empty_first_page (server : Server) (lead_id : String) (now : Int)
    (fuel : Nat) (hm : Bool)
    (h : server (mkParams lead_id (initialState now)) = .ok ⟨[], hm⟩) :
    fetch_paginated_activities server lead_id now (fuel + 1) =
      some (.ok []) ∧
    ∃ st, fetchRun server lead_id now (fuel + 1) = some (.ok st) ∧
      st.trace = [mkParams lead_id (initialState now)] ∧
      st.all_activities = [] := by
  have hrun : fetchRun server lead_id now (fuel + 1) =
      some (.ok { initialState now with
        trace := [mkParams lead_id (initialState now)] }) := by
    unfold fetchRun
    rw [fetchLoop_empty server lead_id fuel (initialState now) hm h]
    rfl
  refine ⟨?_, ⟨_, hrun, by rfl, by rfl⟩⟩
  unfold fetch_paginated_activities
  rw [hrun]; rfl

theorem empty_first_page_witness :
    serverOf 100 [(⟨-5, 0⟩ : Activity)] (mkParams "L1" (initialState 200)) =
      .ok ⟨[], false⟩ ∧
    fetch_paginated_activities (serverOf 100 [(⟨-5, 0⟩ : Activity)])
        "L1" 200 1 =
      some (.ok []) :=
  ⟨by rfl,
    (empty_first_page (serverOf 100 [(⟨-5, 0⟩ : Activity)]) "L1" 200 0 false
      (by rfl)).1⟩

/-! C10: the tie reference always equals the current query bound after a
page is processed. -/

/-- C10: after each non-empty page is processed, both branches of the tie
check leave `first_iteration_date` equal to the new `current_start_date`
(the next request's filter bound); consequently, on every page after the
first, tie detection compares the page's last record's timestamp against
the current query bound. -/
theorem tie_reference_equals_bound (s : LoopState) (d d' : Activity)
    (ds : List Activity) :
    (processPage s d ds).first_iteration_date =
      some ((processPage s d ds).current_start_date) ∧
    tieReference (processPage s d ds) d' =
      some ((processPage s d ds).current_start_date) := by
  have h1 : (processPage s d ds).first_iteration_date =
      some ((processPage s d ds).current_start_date) := by
    unfold processPage
    split
    · rename_i h
      simpa using h.symm
    · rfl
  refine ⟨h1, ?_⟩
  rw [tieReference, processPage_first_iteration]
  simpa using h1

/-! C7: the skip offset resets on a new boundary timestamp and grows by the
page length on a tied boundary. -/

/-- C7: one loop iteration on a non-empty page: the traversal continues
(or stops, per `has_more`) from a state whose offset is the old offset
plus the page length when the page's last timestamp equals the tie
reference, and 0 when it differs; that offset is exactly the `_skip` of
the next request, whose less-than bound is the page's last timestamp. -/
theorem skip_offset_update (server : Server) (lead_id : String) (fuel : Nat)
    (s : LoopState) (d : Activity) (ds : List Activity) (hm : Bool)
    (h : server (mkParams lead_id s) = .ok ⟨d :: ds, hm⟩) :
    ∃ s1, fetchLoop server lead_id (fuel + 1) s =
        (if hm then fetchLoop server lead_id fuel s1 else some (.ok s1)) ∧
      s1.offset = (if some (pageLast d ds) = tieReference s d then
        s.offset + (d :: ds).length else 0) ∧
      (mkParams lead_id s1).skip = s1.offset ∧
      (mkParams lead_id s1).date_created_lt = some (pageLast d ds) := by
  refine ⟨processPage { s with trace := s.trace ++ [mkParams lead_id s] } d ds,
    ?_, ?_, ?_, ?_⟩
  · cases hm
    · simpa using fetchLoop_last server lead_id fuel s d ds h
    · simpa using fetchLoop_more server lead_id fuel s d ds h
  · rw [processPage_offset]
    rfl
  · simp [mkParams, processPage_first_iteration]
  · simp [mkParams, processPage_first_iteration, processPage_current]

theorem skip_offset_update_witness :
    serverOf 2 tieColl (mkParams "L1" (initialState 200)) =
      .ok ⟨[⟨100, 0⟩, ⟨100, 1⟩], true⟩ ∧
    ∃ s1, fetchLoop (serverOf 2 tieColl) "L1" (0 + 1) (initialState 200) =
        (if true then fetchLoop (serverOf 2 tieColl) "L1" 0 s1
          else some (.ok s1)) ∧
      s1.offset = (if some (pageLast ⟨100, 0⟩ [⟨100, 1⟩]) =
          tieReference (initialState 200) ⟨100, 0⟩ then
        (initialState 200).offset +
          ([(⟨100, 0⟩ : Activity), ⟨100, 1⟩]).length else 0) ∧
      (mkParams "L1" s1).skip = s1.offset ∧
      (mkParams "L1" s1).date_created_lt =
        some (pageLast ⟨100, 0⟩ [⟨100, 1⟩]) :=
  ⟨by rfl, skip_offset_update (serverOf 2 tieColl) "L1" 0 (initialState 200)
    ⟨100, 0⟩ [⟨100, 1⟩] true (by rfl)⟩

/-! C6: the traversal is a two-state machine at the request level. -/

/-- From any state past the first iteration, every further request the
loop issues filters with `date_created__lt` and never with
`date_created__gt`: backward seeking is terminal. -/
lemma fetchLoop_backward_trace (server : Server) (lead_id : String) :
    ∀ (fuel : Nat) (s st : LoopState),
      s.first_iteration = false →
      fetchLoop server lead_id fuel s = some (.ok st) →
      ∃ rest, st.trace = s.trace ++ rest ∧
        ∀ p ∈ rest, p.date_created_gt = none ∧ (p.date_created_lt).isSome := by
  intro fuel
  induction fuel with
  | zero =>
    intro s st hfi h
    exact absurd h (by simp [fetchLoop])
  | succ n ih =>
    intro s st hfi h
    have hp : mkParams lead_id s =
        ⟨lead_id, none, some s.current_start_date, s.offset⟩ := by
      simp [mkParams, hfi]
    cases hserver : server (mkParams lead_id s) with
    | error e =>
      rw [fetchLoop_error server lead_id n s e hserver] at h
      exact absurd h (by simp)
    | ok resp =>
      obtain ⟨data, hm⟩ := resp
      cases data with
      | nil =>
        rw [fetchLoop_empty server lead_id n s hm hserver] at h
        simp only [Option.some.injEq, Except.ok.injEq] at h
        subst h
        refine ⟨[mkParams lead_id s], rfl, ?_⟩
        intro p hp2
        simp only [List.mem_singleton] at hp2
        subst hp2
        rw [hp]
        exact ⟨rfl, rfl⟩
      | cons d ds =>
        cases hm with
        | false =>
          rw [fetchLoop_last server lead_id n s d ds hserver] at h
          simp only [Option.some.injEq, Except.ok.injEq] at h
          subst h
          refine ⟨[mkParams lead_id s], by rw [processPage_trace], ?_⟩
          intro p hp2
          simp only [List.mem_singleton] at hp2
          subst hp2
          rw [hp]
          exact ⟨rfl, rfl⟩
        | true =>
          rw [fetchLoop_more server lead_id n s d ds hserver] at h
          obtain ⟨rest, hr1, hr2⟩ :=
            ih _ st (processPage_first_iteration _ d ds) h
          refine ⟨mkParams lead_id s :: rest, ?_, ?_⟩
          · rw [hr1, processPage_trace]
            simp
          · intro p hp2
            rcases List.mem_cons.mp hp2 with h3 | h3
            · subst h3
              rw [hp]
              exact ⟨rfl, rfl⟩
            · exact hr2 p h3

/-- C6: on any successful run, the request trace is the single
`date_created__gt (now - 180)` request (the SEEKING_FORWARD state, first
page only) followed by requests that all carry a `date_created__lt` bound
and no greater-than bound (the terminal SEEKING_BACKWARD state), whatever
the first page contained. -/
theorem first_forward_then_backward (server : Server) (lead_id : String)
    (now : Int) (fuel : Nat) (st : LoopState)
    (h : fetchRun server lead_id now fuel = some (.ok st)) :
    ∃ rest, st.trace =
        ActivityParams.mk lead_id (some (now - lookback_days)) none 0 :: rest ∧
      ∀ p ∈ rest, p.date_created_gt = none ∧ (p.date_created_lt).isSome := by
  cases fuel with
  | zero => exact absurd h (by simp [fetchRun, fetchLoop])
  | succ n =>
    unfold fetchRun at h
    cases hserver : server (mkParams lead_id (initialState now)) with
    | error e =>
      rw [fetchLoop_error server lead_id n _ e hserver] at h
      exact absurd h (by simp)
    | ok resp =>
      obtain ⟨data, hm⟩ := resp
      cases data with
      | nil =>
        rw [fetchLoop_empty server lead_id n _ hm hserver] at h
        simp only [Option.some.injEq, Except.ok.injEq] at h
        subst h
        exact ⟨[], rfl, by simp⟩
      | cons d ds =>
        cases hm with
        | false =>
          rw [fetchLoop_last server lead_id n _ d ds hserver] at h
          simp only [Option.some.injEq, Except.ok.injEq] at h
          subst h
          refine ⟨[], ?_, by simp⟩
          rw [processPage_trace]
          rfl
        | true =>
          rw [fetchLoop_more server lead_id n _ d ds hserver] at h
          obtain ⟨rest, hr1, hr2⟩ := fetchLoop_backward_trace server lead_id
            n _ st (processPage_first_iteration _ d ds) h
          refine ⟨rest, ?_, hr2⟩
          rw [hr1, processPage_trace]
          rfl

theorem first_forward_then_backward_witness :
    fetchRun scenarioServer "L1" 300 5 =
      some (.ok ⟨[⟨150, 0⟩, ⟨140, 1⟩, ⟨130, 2⟩], 130, false, 0, 1, some 130,
        [⟨"L1", some 120, none, 0⟩, ⟨"L1", none, some 130, 0⟩]⟩) ∧
    ∃ rest,
      ([⟨"L1", some 120, none, 0⟩, ⟨"L1", none, some 130, 0⟩] :
          List ActivityParams) =
        ActivityParams.mk "L1" (some 120) none 0 :: rest ∧
      ∀ p ∈ rest, p.date_created_gt = none ∧ (p.date_created_lt).isSome :=
  ⟨by rfl,
    first_forward_then_backward scenarioServer "L1" 300 5
      ⟨[⟨150, 0⟩, ⟨140, 1⟩, ⟨130, 2⟩], 130, false, 0, 1, some 130,
        [⟨"L1", some 120, none, 0⟩, ⟨"L1", none, some 130, 0⟩]⟩ (by rfl)⟩

/-! C8: the traversal terminates on any finite remote collection, and only
via an empty page, a `has_more = false` response, or an error. -/

/-- Filtering with a stronger predicate keeps at most as many elements. -/
lemma length_filter_mono {α : Type} (l : List α) (p q : α → Bool)
    (h : ∀ a, p a = true → q a = true) :
    (l.filter p).length ≤ (l.filter q).length := by
  induction l with
  | nil => simp
  | cons x xs ih =>
    simp only [List.filter_cons]
    by_cases hp : p x = true
    · rw [if_pos hp, if_pos (h x hp)]
      simpa using ih
    · rw [if_neg hp]
      by_cases hq : q x = true
      · rw [if_pos hq]
        exact le_trans ih (Nat.le_succ _)
      · rw [if_neg hq]
        exact ih

/-- Filtering with a strictly stronger predicate, witnessed by a member
kept by `q` but dropped by `p`, keeps strictly fewer elements. -/
lemma length_filter_strict {α : Type} (l : List α) (p q : α → Bool)
    (h : ∀ a, p a = true → q a = true) (a : α) (ha : a ∈ l)
    (hpa : p a = false) (hqa : q a = true) :
    (l.filter p).length < (l.filter q).length := by
  induction l with
  | nil => cases ha
  | cons x xs ih =>
    simp only [List.filter_cons]
    rcases List.mem_cons.mp ha with h1 | h1
    · subst h1
      rw [if_neg (by simp [hpa]), if_pos hqa]
      exact Nat.lt_succ_of_le (length_filter_mono xs p q h)
    · by_cases hp : p x = true
      · rw [if_pos hp, if_pos (h x hp)]
        exact Nat.succ_lt_succ (ih h1)
      · rw [if_neg hp]
        by_cases hq : q x = true
        · rw [if_pos hq]
          exact Nat.lt_succ_of_lt (ih h1)
        · rw [if_neg hq]
          exact ih h1

/-- The number of records of the collection strictly older than a bound:
the termination measure of the backward-seeking phase. -/
def countLt (coll : List Activity) (b : Int) : Nat :=
  (coll.filter (fun a => decide (a.activity_at < b))).length

lemma countLt_strict (coll : List Activity) (b : Int) (r : Activity)
    (hr : r ∈ coll) (hrb : r.activity_at < b) :
    countLt coll r.activity_at < countLt coll b := by
  refine length_filter_strict coll _ _ ?_ r hr ?_ ?_
  · intro a ha
    simp only [decide_eq_true_eq] at ha ⊢
    exact lt_trans ha hrb
  · simp
  · simp [hrb]

lemma matchesFilter_backward (lead_id : String) (b : Int) (k : Nat)
    (a : Activity) :
    matchesFilter ⟨lead_id, none, some b, k⟩ a =
      decide (a.activity_at < b) := by
  simp [matchesFilter]

/-- Records served by the spec-modelled remote come from the collection
and pass the request's filters. -/
lemma serverOf_data_mem (limit : Nat) (coll : List Activity)
    (p : ActivityParams) (a : Activity)
    (ha : a ∈ ((coll.filter (matchesFilter p)).drop p.skip).take limit) :
    a ∈ coll ∧ matchesFilter p a = true :=
  List.mem_filter.mp (List.mem_of_mem_drop (List.mem_of_mem_take ha))

/-- Once the traversal is past its first iteration, fuel exceeding the
number of collection records older than the current bound suffices: each
continuing page moves the bound strictly down the finite set of record
timestamps. -/
lemma backward_fuel (limit : Nat) (coll : List Activity) (lead_id : String) :
    ∀ (n : Nat) (s : LoopState), s.first_iteration = false →
      countLt coll s.current_start_date ≤ n →
      (fetchLoop (serverOf limit coll) lead_id (n + 1) s).isSome := by
  intro n
  induction n with
  | zero =>
    intro s hfi hcount
    have hp : mkParams lead_id s =
        ⟨lead_id, none, some s.current_start_date, s.offset⟩ := by
      simp [mkParams, hfi]
    have hfil : coll.filter (matchesFilter (mkParams lead_id s)) = [] := by
      rw [hp]
      rw [List.filter_congr
        (fun a _ => matchesFilter_backward lead_id s.current_start_date s.offset a)]
      exact List.length_eq_zero.mp (Nat.le_zero.mp hcount)
    have hserver : serverOf limit coll (mkParams lead_id s) =
        .ok ⟨[], false⟩ := by
      simp [serverOf, hfil]
    rw [fetchLoop_empty (serverOf limit coll) lead_id 0 s false hserver]
    rfl
  | succ n ih =>
    intro s hfi hcount
    have hp : mkParams lead_id s =
        ⟨lead_id, none, some s.current_start_date, s.offset⟩ := by
      simp [mkParams, hfi]
    have hserver0 : serverOf limit coll (mkParams lead_id s) =
        .ok ⟨((coll.filter (matchesFilter (mkParams lead_id s))).drop
            (mkParams lead_id s).skip).take limit,
          decide (limit < ((coll.filter (matchesFilter (mkParams lead_id s))).drop
            (mkParams lead_id s).skip).length)⟩ := rfl
    rcases hdl : ((coll.filter (matchesFilter (mkParams lead_id s))).drop
        (mkParams lead_id s).skip).take limit with _ | ⟨d, ds⟩
    · rw [hdl] at hserver0
      rw [fetchLoop_empty (serverOf limit coll) lead_id (n + 1) s _ hserver0]
      rfl
    · rw [hdl] at hserver0
      have hlast_mem : (d :: ds).getLast (List.cons_ne_nil d ds) ∈
          ((coll.filter (matchesFilter (mkParams lead_id s))).drop
            (mkParams lead_id s).skip).take limit := by
        rw [hdl]
        exact List.getLast_mem (List.cons_ne_nil d ds)
      have h2 := serverOf_data_mem limit coll (mkParams lead_id s) _ hlast_mem
      have hlt : pageLast d ds < s.current_start_date := by
        have h3 := h2.2
        rw [hp, matchesFilter_backward] at h3
        exact of_decide_eq_true h3
      cases hhm : decide (limit <
          ((coll.filter (matchesFilter (mkParams lead_id s))).drop
            (mkParams lead_id s).skip).length) with
      | false =>
        rw [hhm] at hserver0
        rw [fetchLoop_last (serverOf limit coll) lead_id (n + 1) s d ds hserver0]
        rfl
      | true =>
        rw [hhm] at hserver0
        rw [fetchLoop_more (serverOf limit coll) lead_id (n + 1) s d ds hserver0]
        refine ih _ (processPage_first_iteration _ d ds) ?_
        rw [processPage_current]
        have hstrict : countLt coll (pageLast d ds) <
            countLt coll s.current_start_date :=
          countLt_strict coll s.current_start_date _ h2.1 hlt
        omega

/-- A successful loop exit always comes from the last issued request
answering with an empty page or with `has_more = false`. -/
lemma fetchLoop_exit (server : Server) (lead_id : String) :
    ∀ (fuel : Nat) (s st : LoopState),
      fetchLoop server lead_id fuel s = some (.ok st) →
      ∃ p resp, st.trace.getLast? = some p ∧ server p = .ok resp ∧
        (resp.data = [] ∨ resp.has_more = false) := by
  intro fuel
  induction fuel with
  | zero =>
    intro s st h
    exact absurd h (by simp [fetchLoop])
  | succ n ih =>
    intro s st h
    cases hserver : server (mkParams lead_id s) with
    | error e =>
      rw [fetchLoop_error server lead_id n s e hserver] at h
      exact absurd h (by simp)
    | ok resp =>
      obtain ⟨data, hm⟩ := resp
      cases data with
      | nil =>
        rw [fetchLoop_empty server lead_id n s hm hserver] at h
        simp only [Option.some.injEq, Except.ok.injEq] at h
        subst h
        exact ⟨mkParams lead_id s, ⟨[], hm⟩,
          List.getLast?_concat _, hserver, Or.inl rfl⟩
      | cons d ds =>
        cases hm with
        | false =>
          rw [fetchLoop_last server lead_id n s d ds hserver] at h
          simp only [Option.some.injEq, Except.ok.injEq] at h
          subst h
          refine ⟨mkParams lead_id s, ⟨d :: ds, false⟩, ?_, hserver, Or.inr rfl⟩
          rw [processPage_trace]
          exact List.getLast?_concat _
        | true =>
          rw [fetchLoop_more server lead_id n s d ds hserver] at h
          exact ih _ st h

/-- C8: against the spec-modelled remote over any finite collection, some
finite fuel lets the traversal reach a result (the loop terminates); and
for any remote at all, a successful traversal ends only because its last
request returned an empty page or `has_more = false` (an error being the
only other way a run can end). -/
theorem traversal_terminates (limit : Nat) (coll : List Activity)
    (lead_id : String) (now : Int) :
    (∃ fuel, (fetchRun (serverOf limit coll) lead_id now fuel).isSome) ∧
    ∀ (server : Server) (fuel : Nat) (st : LoopState),
      fetchRun server lead_id now fuel = some (.ok st) →
      ∃ p resp, st.trace.getLast? = some p ∧ server p = .ok resp ∧
        (resp.data = [] ∨ resp.has_more = false) := by
  constructor
  · refine ⟨coll.length + 2, ?_⟩
    unfold fetchRun
    have hserver0 : serverOf limit coll (mkParams lead_id (initialState now)) =
        .ok ⟨((coll.filter (matchesFilter (mkParams lead_id (initialState now)))).drop
            (mkParams lead_id (initialState now)).skip).take limit,
          decide (limit <
            ((coll.filter (matchesFilter (mkParams lead_id (initialState now)))).drop
              (mkParams lead_id (initialState now)).skip).length)⟩ := rfl
    rcases hdl : ((coll.filter (matchesFilter (mkParams lead_id (initialState now)))).drop
        (mkParams lead_id (initialState now)).skip).take limit with _ | ⟨d, ds⟩
    · rw [hdl] at hserver0
      rw [show coll.length + 2 = (coll.length + 1) + 1 from rfl,
        fetchLoop_empty (serverOf limit coll) lead_id (coll.length + 1) _ _ hserver0]
      rfl
    · rw [hdl] at hserver0
      cases hhm : decide (limit <
          ((coll.filter (matchesFilter (mkParams lead_id (initialState now)))).drop
            (mkParams lead_id (initialState now)).skip).length) with
      | false =>
        rw [hhm] at hserver0
        rw [show coll.length + 2 = (coll.length + 1) + 1 from rfl,
          fetchLoop_last (serverOf limit coll) lead_id (coll.length + 1) _ d ds hserver0]
        rfl
      | true =>
        rw [hhm] at hserver0
        rw [show coll.length + 2 = (coll.length + 1) + 1 from rfl,
          fetchLoop_more (serverOf limit coll) lead_id (coll.length + 1) _ d ds hserver0]
        refine backward_fuel limit coll lead_id coll.length _
          (processPage_first_iteration _ d ds) ?_
        rw [processPage_current]
        exact List.length_filter_le _ coll
  · exact fun server fuel st h => fetchLoop_exit server lead_id fuel _ st h

theorem traversal_terminates_witness :
    (∃ fuel, (fetchRun (serverOf 100 []) "L1" 200 fuel).isSome) ∧
    ∃ p resp,
      ([⟨"L1", some 20, none, 0⟩] : List ActivityParams).getLast? = some p ∧
      serverOf 100 ([] : List Activity) p = .ok resp ∧
      (resp.data = [] ∨ resp.has_more = false) :=
  ⟨(traversal_terminates 100 [] "L1" 200).1,
    (traversal_terminates 100 [] "L1" 200).2 (serverOf 100 []) 1
      ⟨[], 20, true, 0, 0, none, [⟨"L1", some 20, none, 0⟩]⟩ (by rfl)⟩
